import Mathlib

/-!
A verification development for the deckmaster layout and font-fitting
engine.  Go source is embedded shallowly:

* Go `float64` arithmetic is idealised as exact rational arithmetic (`ℚ`);
  the constants involved (`1.4`, `4.5`, `0.25`, `0.7`, `100.0`, …) and the
  comparisons made on them are far from any rounding boundary in the
  scenarios below.
* Go `uint` (64-bit) values are `ℕ`; where the source can underflow a
  subtraction, the wrap-around is made explicit through `goUsub`
  (reduction modulo `2 ^ 64`).
* Go `int(x)` conversion of a non-negative float is `Int.floor` (Go
  truncates toward zero).
* font measurement (`truetype.NewFace` + `font.MeasureString` /
  `font.BoundString` in `actualStringWidth` / `actualStringHeight`) is an
  abstract `Font` record giving the measured width, ascent and descent of
  a string at a DPI and point size.  Measured height is ascent + descent,
  exactly as `actualStringHeight` computes it.
-/

/-- Width of the Go `uint` type (64 bits). -/
def goWordSize : ℕ := 2 ^ 64

/-- Go unsigned subtraction `a - b` on `uint` values `a b < 2^64`:
wraps modulo `2^64` on underflow. -/
def goUsub (a b : ℕ) : ℕ := (a + (goWordSize - b % goWordSize)) % goWordSize

/-- Go conversion `int(x)` of a float, truncation toward zero,
idealised over `ℚ`. -/
def goInt (q : ℚ) : ℤ := if q < 0 then ⌈q⌉ else ⌊q⌋

theorem goUsub_of_le {a b : ℕ} (hb : b ≤ a) (ha : a < goWordSize) :
    goUsub a b = a - b := by
  have hbW : b < goWordSize := lt_of_le_of_lt hb ha
  have hbmod : b % goWordSize = b := Nat.mod_eq_of_lt hbW
  unfold goUsub
  rw [hbmod]
  have h1 : a + (goWordSize - b) = (a - b) + goWordSize := by omega
  rw [h1, Nat.add_mod_right]
  exact Nat.mod_eq_of_lt (by omega)

/-- Abstract font-measurement service (the `truetype` face behind
`actualStringWidth` / `actualStringHeight`): for a DPI, a string and a
point size it yields the measured (ceiled) pixel width, ascent and
descent.  All three are pure functions of their inputs, as in the source.  -/
structure Font where
  widthAt : ℕ → List Char → ℚ → ℤ
  ascentAt : ℕ → List Char → ℚ → ℤ
  descentAt : ℕ → List Char → ℚ → ℤ

/-- Measured string height, `ascent + descent`, exactly as
`actualStringHeight` returns it. -/
def Font.heightAt (F : Font) (dpi : ℕ) (text : List Char) (s : ℚ) : ℤ :=
  F.ascentAt dpi text s + F.descentAt dpi text s

/-- Measure used for termination of the font-fitting loops. -/
def fitMeasure (step size : ℚ) : ℕ := (⌈size / step⌉ : ℤ).toNat

theorem fitMeasure_decreases {step size : ℚ} (hstep : 0 < step)
    (hsize : step < size) :
    fitMeasure step (size - step) < fitMeasure step size := by
  unfold fitMeasure
  have h1 : (1 : ℚ) < size / step := (one_lt_div hstep).mpr hsize
  have h2 : (size - step) / step = size / step - 1 := by
    field_simp
  rw [h2, Int.ceil_sub_one]
  have h3 : (1 : ℤ) < ⌈size / step⌉ := by
    rw [Int.lt_ceil]
    push_cast
    linarith
  omega

/-- The common decrement loop of `determineHeightFittingFontsize` and
`determineWidthFittingFontsize`:

```
for {
    actual = measure(fontsize)
    if actual > maxV && fontsize > step { fontsize -= step } else { break }
}
```

The guard `0 < step` is added so the recursion is well founded; at the
instantiations used by the source (`step = 1/4` in `image_element.go`,
`step = 7/10` in the layout package) it is identically true. -/
def fitLoop (measure : ℚ → ℤ) (maxV : ℤ) (step : ℚ) (size : ℚ) : ℚ :=
  if h : 0 < step ∧ maxV < measure size ∧ step < size then
    fitLoop measure maxV step (size - step)
  else
    size
termination_by fitMeasure step size
decreasing_by exact fitMeasure_decreases h.1 h.2.2

/-- Fuel-indexed version of `fitLoop`: returns `none` when the fuel runs
out before the loop exits.  Used to state termination. -/
def fitLoopFuel (measure : ℚ → ℤ) (maxV : ℤ) (step : ℚ) :
    ℕ → ℚ → Option ℚ
  | 0, _ => none
  | n + 1, size =>
    if 0 < step ∧ maxV < measure size ∧ step < size then
      fitLoopFuel measure maxV step n (size - step)
    else
      some size

theorem fitLoop_le_self (measure : ℚ → ℤ) (maxV : ℤ) (step size : ℚ) :
    fitLoop measure maxV step size ≤ size := by
  rw [fitLoop]
  split
  next h =>
    have ih := fitLoop_le_self measure maxV step (size - step)
    linarith [h.1]
  next => exact le_refl _
termination_by fitMeasure step size
decreasing_by
  rename_i h
  exact fitMeasure_decreases h.1 h.2.2

theorem fitLoop_exit (measure : ℚ → ℤ) (maxV : ℤ) (step size : ℚ) :
    ¬(0 < step ∧ maxV < measure (fitLoop measure maxV step size) ∧
      step < fitLoop measure maxV step size) := by
  rw [fitLoop]
  split
  next h => exact fitLoop_exit measure maxV step (size - step)
  next h => simpa using h
termination_by fitMeasure step size
decreasing_by
  rename_i h
  exact fitMeasure_decreases h.1 h.2.2

/-- At the loop exit, either the measured value fits or the size has
reached the minimal step. -/
theorem fitLoop_fits_or_small (measure : ℚ → ℤ) (maxV : ℤ) {step : ℚ}
    (hstep : 0 < step) (size : ℚ) :
    measure (fitLoop measure maxV step size) ≤ maxV ∨
      fitLoop measure maxV step size ≤ step := by
  have h := fitLoop_exit measure maxV step size
  by_cases h1 : measure (fitLoop measure maxV step size) ≤ maxV
  · exact Or.inl h1
  · right
    by_contra h2
    exact h ⟨hstep, lt_of_not_le h1, lt_of_not_le h2⟩

/-- A loop started at or below the minimal step exits at once. -/
theorem fitLoop_of_le_step (measure : ℚ → ℤ) (maxV : ℤ) {step size : ℚ}
    (h : size ≤ step) : fitLoop measure maxV step size = size := by
  rw [fitLoop]
  split
  next hg => exact absurd hg.2.2 (not_lt.mpr h)
  next => rfl

/-- Lowering the threshold `maxV` never raises the loop result. -/
theorem fitLoop_mono_maxV (measure : ℚ → ℤ) {maxV maxV' : ℤ} (step : ℚ)
    (h : maxV' ≤ maxV) (size : ℚ) :
    fitLoop measure maxV' step size ≤ fitLoop measure maxV step size := by
  by_cases hg : 0 < step ∧ maxV' < measure size ∧ step < size
  · by_cases hg2 : 0 < step ∧ maxV < measure size ∧ step < size
    · conv_lhs => rw [fitLoop, dif_pos hg]
      conv_rhs => rw [fitLoop, dif_pos hg2]
      exact fitLoop_mono_maxV measure step h (size - step)
    · conv_lhs => rw [fitLoop, dif_pos hg]
      conv_rhs => rw [fitLoop, dif_neg hg2]
      have h1 := fitLoop_le_self measure maxV' step (size - step)
      linarith [hg.1]
  · conv_lhs => rw [fitLoop, dif_neg hg]
    have hg2 : ¬(0 < step ∧ maxV < measure size ∧ step < size) := by
      intro hc
      exact hg ⟨hc.1, lt_of_le_of_lt h hc.2.1, hc.2.2⟩
    conv_rhs => rw [fitLoop, dif_neg hg2]
termination_by fitMeasure step size
decreasing_by
  exact fitMeasure_decreases hg.1 hg.2.2

/-- With fuel above the termination measure, the fuel-indexed loop
reaches the fixpoint computed by `fitLoop`. -/
theorem fitLoopFuel_eq (measure : ℚ → ℤ) (maxV : ℤ) (step : ℚ) :
    ∀ n size, fitMeasure step size < n →
      fitLoopFuel measure maxV step n size =
        some (fitLoop measure maxV step size) := by
  intro n
  induction n with
  | zero => intro size h; omega
  | succ m ih =>
    intro size h
    by_cases hg : 0 < step ∧ maxV < measure size ∧ step < size
    · rw [fitLoopFuel, if_pos hg, fitLoop, dif_pos hg]
      exact ih (size - step) (by
        have := fitMeasure_decreases hg.1 hg.2.2
        omega)
    · rw [fitLoopFuel, if_neg hg, fitLoop, dif_neg hg]

/-- Embedding of `determineHeightFittingFontsize` (both the
`image_element.go` version, `step = 1/4`, and the layout-package version,
`step = 7/10`): decrement `fontsize` while the measured string height
exceeds `maxHeight` and `fontsize` exceeds the step, then return the
ascent and descent measured at the final size together with that size. -/
def determineHeightFittingFontsize (F : Font) (step : ℚ) (dpi : ℕ)
    (startingFontsize : ℚ) (maxHeight : ℤ) (text : List Char) :
    ℤ × ℤ × ℚ :=
  let fontsize := fitLoop (fun s => F.heightAt dpi text s) maxHeight step
    startingFontsize
  (F.ascentAt dpi text fontsize, F.descentAt dpi text fontsize, fontsize)

/-- Embedding of `determineWidthFittingFontsize`: decrement `fontsize`
while the measured string width exceeds `maxWidth` and `fontsize` exceeds
the step, then return the width measured at the final size and that
size. -/
def determineWidthFittingFontsize (F : Font) (step : ℚ) (dpi : ℕ)
    (startingFontsize : ℚ) (maxWidth : ℤ) (text : List Char) :
    ℤ × ℚ :=
  let fontsize := fitLoop (fun s => F.widthAt dpi text s) maxWidth step
    startingFontsize
  (F.widthAt dpi text fontsize, fontsize)

/-- Embedding of `maxFontSize`: seed with `height / (dpi/72)` scaled by
`1.4`, run the height-fit phase and then the width-fit phase from its
result, and return the final size, the width measured at it, and the
ascent/descent measured at it (via `actualStringHeight`). -/
def maxFontSize (F : Font) (step : ℚ) (dpi : ℕ) (width height : ℤ)
    (text : List Char) : ℚ × ℤ × ℤ × ℤ :=
  let startingFontsize : ℚ := (height : ℚ) / ((dpi : ℚ) / 72)
  let initialFontsize : ℚ := startingFontsize * (7 / 5)
  let heightFittingFontsize :=
    (determineHeightFittingFontsize F step dpi initialFontsize height
      text).2.2
  let widthFit := determineWidthFittingFontsize F step dpi
    heightFittingFontsize width text
  (widthFit.2, widthFit.1, F.ascentAt dpi text widthFit.2,
    F.descentAt dpi text widthFit.2)

/-- Embedding of `ImageElement.calculateSegmentsInterspace` /
`WidgetElement.calculateSegmentsInterspace`: `height / (3*N)` with a
floor of 5 pixels (`uint` division). -/
def calculateSegmentsInterspace (height numberOfSegments : ℕ) : ℕ :=
  let interspace := height / (3 * numberOfSegments)
  if interspace < 5 then 5 else interspace

/-- Embedding of `ImageElement.calculateSegmentSize` /
`WidgetElement.calculateSegmentSize`:
`(height - (N-1)*interspace) / N` in Go `uint` arithmetic — the
subtraction wraps modulo `2^64` when `(N-1)*interspace > height`. -/
def calculateSegmentSize (height numberOfSegments interspace : ℕ) : ℕ :=
  goUsub height (((numberOfSegments - 1) * interspace) % goWordSize) /
    numberOfSegments

/-- Embedding of `calculateIconSizeRatio`: `1.0` for zero info segments,
`0.66` for one, otherwise `math.Round(1.0/n*100)/100` (`math.Round` on a
positive argument is round-half-up, which is Mathlib's `round`). -/
def calculateIconSizeRatio (numberOfInfoSegments : ℕ) : ℚ :=
  if numberOfInfoSegments = 0 then 1
  else if numberOfInfoSegments = 1 then 33 / 50
  else ((round ((1 / (numberOfInfoSegments : ℚ)) * 100) : ℤ) : ℚ) / 100

/-- An RGBA pixel value (8 bits per channel, as in `image.RGBA`). -/
structure RGBA where
  r : ℕ
  g : ℕ
  b : ℕ
  a : ℕ
deriving DecidableEq

/-- `color.White` converted to RGBA by `img.Set`. -/
def whiteRGBA : RGBA := ⟨255, 255, 255, 255⟩

/-- `color.Gray16{0x7FFF}` converted to RGBA by `img.Set`
(16-bit gray `0x7FFF` stores as 8-bit channel `0x7F`). -/
def trackGray : RGBA := ⟨127, 127, 127, 255⟩

/-- The zero value of a freshly allocated pixel (`image.NewRGBA` zeroes
the buffer). -/
def zeroRGBA : RGBA := ⟨0, 0, 0, 0⟩

/-- A pixel buffer: `image.NewRGBA(image.Rect(0, 0, w, h))` together with
its pixel contents. -/
structure Image where
  width : ℕ
  height : ℕ
  pix : ℕ → ℕ → RGBA

/-- `image.NewRGBA(image.Rect(0, 0, w, h))`: zeroed pixels. -/
def newRGBA (w h : ℕ) : Image := ⟨w, h, fun _ _ => zeroRGBA⟩

/-- `img.Set(x, y, c)`: writes inside the bounds are stored, writes
outside the bounds are discarded (Go checks `Point.In(p.Rect)`). -/
def Image.set (img : Image) (x y : ℕ) (c : RGBA) : Image :=
  if x < img.width ∧ y < img.height then
    ⟨img.width, img.height, fun a b =>
      if a = x ∧ b = y then c else img.pix a b⟩
  else img

/-- Inner pixel loop `for y := 0; y < count; y++ { img.Set(x, y+yOff, c) }`. -/
def setYs (img : Image) (x yOff : ℕ) (c : RGBA) : ℕ → Image
  | 0 => img
  | n + 1 => (setYs img x yOff c n).set x (n + yOff) c

/-- Outer pixel loop
`for x := x0; x < x0+count; x++ { for y ... img.Set(x, y+yOff, c) }`. -/
def setXs (img : Image) (x0 yOff countY : ℕ) (c : RGBA) : ℕ → Image
  | 0 => img
  | k + 1 => setYs (setXs img x0 yOff countY c k) (x0 + k) yOff c countY

/-- Embedding of `createBar(length, thickness, percentage)`
(`image_element.go` and the layout package; `percentage` is a `uint8`):
allocate a `length × thickness` RGBA image, fill the thick part
(`int((float64(length)/100.0) * float64(percentage))` columns) with
`color.White` over the full thickness, then fill the remaining columns
with `color.Gray16{0x7FFF}` over `thickness - thickness/3` rows starting
at row `(thickness - (thickness - thickness/3)) / 2`. -/
def createBar (length thickness : ℕ) (percentage : ℕ) : Image :=
  let img := newRGBA length thickness
  let thickPartLength : ℕ :=
    (goInt (((length : ℚ) / 100) * (percentage : ℚ))).toNat
  let img := setXs img 0 0 thickness whiteRGBA thickPartLength
  let thinThickness := thickness - thickness / 3
  let yOffset := (thickness - thinThickness) / 2
  setXs img thickPartLength yOffset thinThickness trackGray
    (length - thickPartLength)

theorem Image.set_width (img : Image) (x y : ℕ) (c : RGBA) :
    (img.set x y c).width = img.width := by
  unfold Image.set
  split <;> rfl

theorem Image.set_height (img : Image) (x y : ℕ) (c : RGBA) :
    (img.set x y c).height = img.height := by
  unfold Image.set
  split <;> rfl

theorem Image.set_pix (img : Image) (x y : ℕ) (c : RGBA) (a b : ℕ) :
    (img.set x y c).pix a b =
      if a = x ∧ b = y ∧ x < img.width ∧ y < img.height then c
      else img.pix a b := by
  unfold Image.set
  split
  next hin =>
    by_cases hab : a = x ∧ b = y
    · simp [hab, hin]
    · simp only []
      rw [if_neg hab, if_neg (by tauto)]
  next hin =>
    rw [if_neg (by tauto)]

theorem setYs_width (img : Image) (x yOff : ℕ) (c : RGBA) (n : ℕ) :
    (setYs img x yOff c n).width = img.width := by
  induction n with
  | zero => rfl
  | succ m ih => rw [setYs, Image.set_width, ih]

theorem setYs_height (img : Image) (x yOff : ℕ) (c : RGBA) (n : ℕ) :
    (setYs img x yOff c n).height = img.height := by
  induction n with
  | zero => rfl
  | succ m ih => rw [setYs, Image.set_height, ih]

theorem setYs_pix (img : Image) (x yOff : ℕ) (c : RGBA) (n a b : ℕ) :
    (setYs img x yOff c n).pix a b =
      if a = x ∧ yOff ≤ b ∧ b < yOff + n ∧ a < img.width ∧ b < img.height
      then c else img.pix a b := by
  induction n with
  | zero =>
    rw [setYs, if_neg (by omega)]
  | succ m ih =>
    rw [setYs, Image.set_pix, setYs_width, setYs_height, ih]
    by_cases h1 : a = x ∧ b = m + yOff ∧ x < img.width ∧ b < img.height
    · rw [if_pos (by omega), if_pos (by omega)]
    · rw [if_neg (by omega)]
      by_cases h2 : a = x ∧ yOff ≤ b ∧ b < yOff + m ∧ a < img.width ∧
          b < img.height
      · rw [if_pos h2, if_pos (by omega)]
      · rw [if_neg h2, if_neg (by omega)]

theorem setXs_width (img : Image) (x0 yOff countY : ℕ) (c : RGBA)
    (k : ℕ) : (setXs img x0 yOff countY c k).width = img.width := by
  induction k with
  | zero => rfl
  | succ m ih => rw [setXs, setYs_width, ih]

theorem setXs_height (img : Image) (x0 yOff countY : ℕ) (c : RGBA)
    (k : ℕ) : (setXs img x0 yOff countY c k).height = img.height := by
  induction k with
  | zero => rfl
  | succ m ih => rw [setXs, setYs_height, ih]

theorem setXs_pix (img : Image) (x0 yOff countY : ℕ) (c : RGBA)
    (k a b : ℕ) :
    (setXs img x0 yOff countY c k).pix a b =
      if x0 ≤ a ∧ a < x0 + k ∧ yOff ≤ b ∧ b < yOff + countY ∧
          a < img.width ∧ b < img.height
      then c else img.pix a b := by
  induction k with
  | zero =>
    rw [setXs, if_neg (by omega)]
  | succ m ih =>
    rw [setXs, setYs_pix, setXs_width, setXs_height, ih]
    by_cases h1 : a = x0 + m ∧ yOff ≤ b ∧ b < yOff + countY ∧
        a < img.width ∧ b < img.height
    · rw [if_pos h1, if_pos (by omega)]
    · rw [if_neg h1]
      by_cases h2 : x0 ≤ a ∧ a < x0 + m ∧ yOff ≤ b ∧ b < yOff + countY ∧
          a < img.width ∧ b < img.height
      · rw [if_pos h2, if_pos (by omega)]
      · rw [if_neg h2, if_neg (by omega)]

/-- The width of the filled zone computed by `createBar` is
`(length * percentage) / 100` (integer division): the Go expression
`int((float64(length)/100.0) * float64(percentage))` truncates the exact
non-negative rational `length*percentage/100`. -/
theorem createBar_thickPartLength (length percentage : ℕ) :
    (goInt (((length : ℚ) / 100) * (percentage : ℚ))).toNat =
      length * percentage / 100 := by
  have hq : ((length : ℚ) / 100) * (percentage : ℚ) =
      ((length * percentage : ℕ) : ℚ) / ((100 : ℕ) : ℚ) := by
    push_cast
    ring
  have hnonneg : (0 : ℚ) ≤ ((length : ℚ) / 100) * (percentage : ℚ) := by
    positivity
  unfold goInt
  rw [if_neg (not_lt.mpr hnonneg), hq, Rat.floor_natCast_div_natCast]
  exact Int.toNat_natCast _

theorem newRGBA_width (w h : ℕ) : (newRGBA w h).width = w := rfl

theorem newRGBA_height (w h : ℕ) : (newRGBA w h).height = h := rfl

theorem newRGBA_pix (w h a b : ℕ) : (newRGBA w h).pix a b = zeroRGBA := rfl

theorem createBar_width (length thickness percentage : ℕ) :
    (createBar length thickness percentage).width = length := by
  simp only [createBar]
  rw [setXs_width, setXs_width, newRGBA_width]

theorem createBar_height (length thickness percentage : ℕ) :
    (createBar length thickness percentage).height = thickness := by
  simp only [createBar]
  rw [setXs_height, setXs_height, newRGBA_height]

/-- Pixels outside the allocated bounds are never written: `img.Set`
discards them, so they keep the zero value of the fresh buffer. -/
theorem createBar_pix_outside (length thickness percentage : ℕ)
    {a b : ℕ} (h : length ≤ a ∨ thickness ≤ b) :
    (createBar length thickness percentage).pix a b = zeroRGBA := by
  simp only [createBar]
  rw [createBar_thickPartLength, setXs_pix, setXs_width, setXs_height,
    newRGBA_width, newRGBA_height, setXs_pix, newRGBA_width,
    newRGBA_height, newRGBA_pix]
  rw [if_neg (by omega), if_neg (by omega)]

/-- A primitive draw operation recorded against a canvas.  The rasteriser
(freetype / `draw.Draw` / `nfnt/resize`) is a pure function of these
parameters, so two canvases with equal dimensions and equal operation
lists rasterise to byte-identical bitmaps. -/
inductive DrawOp where
  /-- `drawImageWithResizing(target, icon, size, pos)` — icons are
  abstract identifiers, their decoding is outside the core. -/
  | resized (icon : ℕ) (size : ℕ) (pos : ℤ × ℤ)
  /-- `drawImage(target, img, pos)` where `img` is a finished sub-canvas
  with the given dimensions and recorded operations. -/
  | imageAt (w h : ℕ) (content : List DrawOp) (pos : ℤ × ℤ)
  /-- `drawImage(target, createBar(length, thickness, percentage), pos)`. -/
  | barAt (length thickness percentage : ℕ) (pos : ℤ × ℤ)
  /-- `c.DrawString(text, pt)` at a DPI, point size and source color. -/
  | strAt (text : List Char) (dpi : ℕ) (fontsize : ℚ) (col : RGBA)
      (pos : ℤ × ℤ)

/-- An `image.RGBA` canvas being composed: its allocation size plus the
draw operations performed on it, in order. -/
structure Canvas where
  width : ℕ
  height : ℕ
  ops : List DrawOp

namespace Layouts

/-!
Model of the layout package (`button_layout.go` / `widget_element.go`
sources): `WidgetElement`, `ButtonLayout` and `ScreenSegmentLayout`.
Font-fit steps in this package use `sizeDecrease = 0.7`.
-/

/-- Step constant `sizeDecrease := 0.7` of the layout package. -/
def sizeDecrease : ℚ := 7 / 10

/-- Embedding of the layout package `drawString2`: recompute the size via
`maxFontSize` when the given size is non-positive, re-center horizontally
and/or vertically from the measured string extents, and emit the final
`DrawString` call. -/
def drawString2 (F : Font) (boundsW boundsH : ℕ) (text : List Char)
    (dpi : ℕ) (fontsize : ℚ) (col : RGBA) (pt : ℤ × ℤ)
    (centerHorizontally centerVertically : Bool) : DrawOp :=
  let fs := if fontsize ≤ 0 then
      (maxFontSize F sizeDecrease dpi (boundsW : ℤ) (boundsH : ℤ) text).1
    else fontsize
  let pt1 := if centerHorizontally then
      let actualWidth := F.widthAt dpi text fs
      let xCenter : ℚ := (boundsW : ℚ) / 2 - (actualWidth : ℚ) / 2
      (pt.1 + goInt xCenter, pt.2)
    else pt
  let pt2 := if centerVertically then
      let actualHeight := F.heightAt dpi text fs
      let yCenter : ℚ := ((boundsH / 2 : ℕ) : ℚ) + (actualHeight : ℚ) / 2
      (pt1.1, (pt1.2 - (boundsH : ℤ)) + goInt yCenter)
    else pt1
  DrawOp.strAt text dpi fs col pt2

/-- The `elementSegment` variants of the layout package.  Icons are
abstract identifiers; a text segment carries its font and color as in the
source. -/
inductive elementSegment where
  | iconSegment (img : ℕ)
  | percentageBarSegment (percentage : ℕ)
  | textSegment (text : List Char) (font : Font) (fontColor : RGBA)
      (alignmentX : ℤ) (centerVertically : Bool)
  | blankSegment

/-- The draw operation of one `elementSegment` (its `draw` method),
given the owning element's width, band height, current vertical cursor
and DPI.  `blankSegment.draw` paints nothing. -/
def elementSegment.draw (s : elementSegment)
    (width segmentHeight segmentPositionY dpi : ℕ) : Option DrawOp :=
  match s with
  | iconSegment img =>
    let iconSize := if width < segmentHeight then width else segmentHeight
    some (DrawOp.resized img iconSize (-1, -1))
  | percentageBarSegment percentage =>
    some (DrawOp.barAt width segmentHeight percentage
      (0, (segmentPositionY : ℤ)))
  | textSegment text font fontColor alignmentX centerVertically =>
    let fit := maxFontSize font sizeDecrease dpi (width : ℤ)
      (segmentHeight : ℤ) text
    let fontsize := fit.1
    let actualWidth := fit.2.1
    let descent := fit.2.2.2
    let x : ℤ := if alignmentX = 0 then 0
      else if alignmentX = -1 then 0
      else (width : ℤ) - actualWidth
    let centerHorizontally := alignmentX = 0
    let y : ℤ := (segmentPositionY : ℤ) + (segmentHeight : ℤ) - descent
    some (drawString2 font width segmentHeight text dpi fontsize fontColor
      (x, y) centerHorizontally centerVertically)
  | blankSegment => none

/-- The segment loop of `WidgetElement.drawElement`: draw each segment at
the current cursor, then advance the cursor by band height plus
interspace. -/
def drawSegments (width segmentHeight interspace dpi : ℕ) :
    List elementSegment → ℕ → List DrawOp
  | [], _ => []
  | s :: rest, posY =>
    (s.draw width segmentHeight posY dpi).toList ++
      drawSegments width segmentHeight interspace dpi rest
        (posY + (segmentHeight + interspace))

/-- Embedding of `WidgetElement`: the element's canvas exists only after
the first `drawElement` call (`img` is `nil` before). -/
structure WidgetElement where
  img : Option Canvas
  segmentHeight : ℕ
  segmentsInterspace : ℕ
  dpi : ℕ
  segmentPositionY : ℕ
  segments : List elementSegment

end Layouts

namespace ImageElem

/-!
Model of `image_element.go`: `ImageElement` and its segments.  The text
path uses the global `ttfFont` (passed explicitly here) and the step
constant `0.25`; `DrawElement` reuses the element's canvas and vertical
cursor without resetting them.
-/

/-- Step constant `0.25` of `image_element.go`. -/
def sizeStep : ℚ := 1 / 4

/-- Embedding of the `image_element.go` `drawString2` (it differs from
the layout-package one in how the centered point is rebased:
`bounds.Min.X + int(xCenter)` and `bounds.Min.Y + int(yCenter)` with
`Min = (0,0)` here). -/
def drawString2 (F : Font) (boundsW boundsH : ℕ) (text : List Char)
    (dpi : ℕ) (fontsize : ℚ) (col : RGBA) (pt : ℤ × ℤ)
    (centerHorizontally centerVertically : Bool) : DrawOp :=
  let fs := if fontsize ≤ 0 then
      (maxFontSize F sizeStep dpi (boundsW : ℤ) (boundsH : ℤ) text).1
    else fontsize
  let pt1 := if centerHorizontally then
      let actualWidth := F.widthAt dpi text fs
      let xCenter : ℚ := (boundsW : ℚ) / 2 - (actualWidth : ℚ) / 2
      (goInt xCenter, pt.2)
    else pt
  let pt2 := if centerVertically then
      let actualHeight := F.heightAt dpi text fs
      let yCenter : ℚ := ((boundsH / 2 : ℕ) : ℚ) + (actualHeight : ℚ) / 2
      (pt1.1, goInt yCenter)
    else pt1
  DrawOp.strAt text dpi fs col pt2

/-- The segment variants of `image_element.go`; the text segment holds
no font or color of its own (it uses the global font and the element's
`fontColor`). -/
inductive segment where
  | iconSegment (img : ℕ)
  | percentageBarSegment (percentage : ℕ)
  | textSegment (text : List Char) (alignmentX : ℤ)
      (centerVertically : Bool)
  | blankSegment

/-- The draw operation of one `image_element.go` segment, given the
global font and the owning element's width, band height, cursor, DPI and
font color. -/
def segment.draw (s : segment) (ttfFont : Font)
    (width segmentHeight segmentPositionY dpi : ℕ) (fontColor : RGBA) :
    Option DrawOp :=
  match s with
  | iconSegment img =>
    let iconSize := if width < segmentHeight then width else segmentHeight
    some (DrawOp.resized img iconSize (-1, -1))
  | percentageBarSegment percentage =>
    some (DrawOp.barAt width segmentHeight percentage
      (0, (segmentPositionY : ℤ)))
  | textSegment text alignmentX centerVertically =>
    let fit := maxFontSize ttfFont sizeStep dpi (width : ℤ)
      (segmentHeight : ℤ) text
    let fontsize := fit.1
    let actualWidth := fit.2.1
    let descent := fit.2.2.2
    let x : ℤ := if alignmentX = 0 then 0
      else if alignmentX = -1 then 0
      else (width : ℤ) - actualWidth
    let centerHorizontally := alignmentX = 0
    let y : ℤ := (segmentPositionY : ℤ) + (segmentHeight : ℤ) - descent
    some (drawString2 ttfFont width segmentHeight text dpi fontsize
      fontColor (x, y) centerHorizontally centerVertically)
  | blankSegment => none

/-- The segment loop of `ImageElement.DrawElement`. -/
def drawSegments (ttfFont : Font) (width segmentHeight interspace dpi : ℕ)
    (fontColor : RGBA) : List segment → ℕ → List DrawOp
  | [], _ => []
  | s :: rest, posY =>
    (s.draw ttfFont width segmentHeight posY dpi fontColor).toList ++
      drawSegments ttfFont width segmentHeight interspace dpi fontColor
        rest (posY + (segmentHeight + interspace))

/-- Embedding of `ImageElement`: unlike `WidgetElement`, its canvas is
allocated at construction time and `DrawElement` neither clears it nor
resets `segmentPositionY`. -/
structure ImageElement where
  img : Canvas
  segmentHeight : ℕ
  segmentsInterspace : ℕ
  dpi : ℕ
  fontColor : RGBA
  segmentPositionY : ℕ
  segments : List segment

/-- Embedding of `NewImageElementWithStrings`: fresh canvas of the given
bounds, cursor at 0, no segments yet. -/
def NewImageElementWithStrings (boundsW boundsH : ℕ) (dpi : ℕ)
    (fontColor : RGBA) : ImageElement :=
  ⟨⟨boundsW, boundsH, []⟩, 0, 0, dpi, fontColor, 0, []⟩

end ImageElem

namespace Layouts

/-- Embedding of `ScreenSegmentLayout` (label element above an icon/info
row). -/
structure ScreenSegmentLayout where
  iconElement : Option WidgetElement
  labelElement : Option WidgetElement
  infoElement : Option WidgetElement
  dpi : ℕ

/-- The bounds and positions computed by
`ScreenSegmentLayout.CreateImage` before it draws the elements.
Rectangles have `Min = (0, 0)`, so only `Max` is recorded; bounds and
positions are Go `int` values. -/
structure ScreenSegmentGeometry where
  margin : ℕ
  height : ℕ
  width : ℕ
  interspaceElements : ℕ
  labelBoundsMax : ℤ × ℤ
  iconBoundsMax : ℤ × ℤ
  infoBoundsMax : ℤ × ℤ
  labelPosition : ℤ × ℤ
  iconPosition : ℤ × ℤ
  infoPosition : ℤ × ℤ

/-- Embedding of the geometry part of `ScreenSegmentLayout.CreateImage`
(the element bounds and positions it computes; the subsequent
`drawElement` calls consume exactly these values).  `uint(float64(h)/4.5)`
is the floor of the exact quotient; the subtraction of
`interspaceElements/2` is Go `uint` subtraction. -/
def ScreenSegmentLayout.CreateImageGeometry (l : ScreenSegmentLayout)
    (boundsW boundsH : ℕ) : ScreenSegmentGeometry :=
  let imageHeight := boundsH
  let imageWidth := boundsW
  let margin := imageHeight / 18
  let height := imageHeight - margin * 2
  let width := goUsub imageWidth (margin * 2)
  let initialPosition : ℤ × ℤ := ((margin : ℤ), (margin : ℤ))
  let interspaceElements := margin
  let g0 : ScreenSegmentGeometry :=
    ⟨margin, height, width, interspaceElements,
      ((width : ℤ), (height : ℤ)), ((width : ℤ), (height : ℤ)),
      ((width : ℤ), (height : ℤ)),
      initialPosition, initialPosition, initialPosition⟩
  let g1 : ScreenSegmentGeometry :=
    match l.labelElement with
    | none => g0
    | some _ =>
      let labelHeight := goUsub (⌊(height : ℚ) / (9 / 2)⌋).toNat
        (interspaceElements / 2)
      { g0 with
          labelBoundsMax := (g0.labelBoundsMax.1, (labelHeight : ℤ)),
          iconBoundsMax := (g0.iconBoundsMax.1,
            g0.iconBoundsMax.2 - ((labelHeight + interspaceElements : ℕ) : ℤ)),
          infoBoundsMax := (g0.infoBoundsMax.1,
            g0.infoBoundsMax.2 - ((labelHeight + interspaceElements : ℕ) : ℤ)),
          iconPosition := (g0.iconPosition.1,
            g0.iconPosition.2 + ((labelHeight + interspaceElements : ℕ) : ℤ)),
          infoPosition := (g0.infoPosition.1,
            g0.infoPosition.2 + ((labelHeight + interspaceElements : ℕ) : ℤ)) }
  match l.iconElement, l.infoElement with
  | some _, some _ =>
    let iconMaxX : ℕ := goUsub (⌊(width : ℚ) / 3⌋).toNat
      (interspaceElements / 2)
    let iconDx : ℕ := iconMaxX
    { g1 with
        iconBoundsMax := ((iconMaxX : ℤ), g1.iconBoundsMax.2),
        infoBoundsMax :=
          (((goUsub (goUsub width iconDx) (interspaceElements / 2) : ℕ) : ℤ),
            g1.infoBoundsMax.2),
        infoPosition := (g1.infoPosition.1 + (iconDx : ℤ) +
          (interspaceElements : ℤ), g1.infoPosition.2) }
  | _, _ => g1

end Layouts

/-- Embedding of `stripTextTo` (`widget_pulseaudio_control.go`): keep at
most `maxLength` runes of `text`. -/
def stripTextTo (maxLength : ℕ) (text : List Char) : List Char :=
  if maxLength < text.length then text.take maxLength else text

/-- Embedding of the sink-input record parsed from `pacmd`. -/
structure sinkInputData where
  muted : Bool
  title : List Char
  index : List Char
  appPid : ℕ

/-- Embedding of `PulseAudioControlWidget.getLabel`: the media title when
titles are shown and a playing sink with a non-empty title exists,
otherwise the configured application name. -/
def getLabel (showTitle : Bool) (sink : Option sinkInputData)
    (appName : List Char) : List Char :=
  match sink with
  | some d => if showTitle = true ∧ d.title ≠ [] then d.title else appName
  | none => appName

/-- The label assignment performed by `PulseAudioControlWidget.Update`:
`w.label = stripTextTo(10, w.getLabel(sinkInputData))`. -/
def pulseUpdateLabel (showTitle : Bool) (sink : Option sinkInputData)
    (appName : List Char) : List Char :=
  stripTextTo 10 (getLabel showTitle sink appName)

/-- C2 counterexample: an Element with 3 segments drawn into a rectangle
of height 9 computes spacing 5, and the `uint` subtraction in
`calculateSegmentSize` underflows (`9 - 2*5` wraps), so the band height
is astronomically large and `B*N + S*(N-1) <= H` fails. -/
theorem calculateSegmentSize_underflow_cex :
    calculateSegmentsInterspace 9 3 = 5 ∧
    ¬(calculateSegmentSize 9 3 (calculateSegmentsInterspace 9 3) * 3 +
      calculateSegmentsInterspace 9 3 * (3 - 1) ≤ 9) := by
  constructor
  · decide
  · decide

/-- C2 (amended): for an Element with `N ≥ 1` segments and rectangle
height `H` large enough that the spacing reservation does not underflow
(`5*(N-1) ≤ H`, `H` a `uint`), the computed spacing `S` and band height
`B` satisfy `S ≥ 5` and `B*N + S*(N-1) ≤ H`. -/
theorem bandSize_invariant (H N : ℕ) (hN : 1 ≤ N)
    (hH : 5 * (N - 1) ≤ H) (hW : H < goWordSize) :
    5 ≤ calculateSegmentsInterspace H N ∧
    calculateSegmentSize H N (calculateSegmentsInterspace H N) * N +
      calculateSegmentsInterspace H N * (N - 1) ≤ H := by
  have hS5 : 5 ≤ calculateSegmentsInterspace H N := by
    simp only [calculateSegmentsInterspace]
    split <;> omega
  refine ⟨hS5, ?_⟩
  set S := calculateSegmentsInterspace H N with hS
  have hSle : (N - 1) * S ≤ H := by
    rw [hS]
    simp only [calculateSegmentsInterspace]
    split
    next => omega
    next h =>
      have h1 : H / (3 * N) * (3 * N) ≤ H := Nat.div_mul_le_self H (3 * N)
      have h2 : (N - 1) * (H / (3 * N)) ≤ H / (3 * N) * (3 * N) := by
        rw [mul_comm]
        exact Nat.mul_le_mul_left _ (by omega)
      omega
  unfold calculateSegmentSize
  rw [Nat.mod_eq_of_lt (lt_of_le_of_lt hSle hW), goUsub_of_le hSle hW]
  have hBN : (H - (N - 1) * S) / N * N ≤ H - (N - 1) * S :=
    Nat.div_mul_le_self _ N
  calc (H - (N - 1) * S) / N * N + S * (N - 1)
      ≤ (H - (N - 1) * S) + S * (N - 1) := Nat.add_le_add_right hBN _
    _ = H := by rw [mul_comm S (N - 1)]; omega

/-- C2 witness: an Element with 3 segments in a 100-pixel-high rectangle
satisfies the amended invariant. -/
theorem bandSize_invariant_witness :
    (1 ≤ 3 ∧ 5 * (3 - 1) ≤ 100 ∧ 100 < goWordSize) ∧
    (5 ≤ calculateSegmentsInterspace 100 3 ∧
      calculateSegmentSize 100 3 (calculateSegmentsInterspace 100 3) * 3 +
        calculateSegmentsInterspace 100 3 * (3 - 1) ≤ 100) :=
  ⟨⟨by norm_num, by norm_num, by norm_num [goWordSize]⟩,
    bandSize_invariant 100 3 (by norm_num) (by norm_num)
      (by norm_num [goWordSize])⟩

/-- C3: the icon size ratio is `1.0` for 0 info segments, `0.66` for 1,
and `round(100/n)/100` for `n ≥ 2`; in particular `0.5` for 2 and `0.33`
for 3. -/
theorem calculateIconSizeRatio_spec :
    calculateIconSizeRatio 0 = 1 ∧
    calculateIconSizeRatio 1 = 33 / 50 ∧
    (∀ n : ℕ, 2 ≤ n → calculateIconSizeRatio n =
      ((round ((100 : ℚ) / (n : ℚ)) : ℤ) : ℚ) / 100) ∧
    calculateIconSizeRatio 2 = 1 / 2 ∧
    calculateIconSizeRatio 3 = 33 / 100 := by
  refine ⟨by norm_num [calculateIconSizeRatio],
    by norm_num [calculateIconSizeRatio], ?_, ?_, ?_⟩
  · intro n hn
    unfold calculateIconSizeRatio
    rw [if_neg (by omega), if_neg (by omega)]
    have h : (1 / (n : ℚ)) * 100 = (100 : ℚ) / (n : ℚ) := by
      field_simp
    rw [h]
  · norm_num [calculateIconSizeRatio, round_eq]
  · norm_num [calculateIconSizeRatio, round_eq]

/-- C3 witness: the `n ≥ 2` clause applied at `n = 5`. -/
theorem calculateIconSizeRatio_spec_witness :
    (2 : ℕ) ≤ 5 ∧ calculateIconSizeRatio 5 =
      ((round ((100 : ℚ) / (5 : ℚ)) : ℤ) : ℚ) / 100 :=
  ⟨by norm_num, calculateIconSizeRatio_spec.2.2.1 5 (by norm_num)⟩

/-- C9: for every length, thickness and `uint8` percentage — including
values above 100 — `createBar` returns an image whose bounds are exactly
`L × T`; writes beyond the bounds are discarded, so every out-of-bounds
pixel keeps the zero value of the fresh buffer. -/
theorem createBar_bounds_safe (L T P : ℕ) (hP : P < 256) :
    (createBar L T P).width = L ∧ (createBar L T P).height = T ∧
    ∀ x y, L ≤ x ∨ T ≤ y → (createBar L T P).pix x y = zeroRGBA :=
  ⟨createBar_width L T P, createBar_height L T P,
    fun _ _ h => createBar_pix_outside L T P h⟩

/-- C9 witness: an out-of-range percentage (200) still yields a 4×3
image with untouched pixels outside the bounds. -/
theorem createBar_bounds_safe_witness :
    (200 : ℕ) < 256 ∧ (createBar 4 3 200).width = 4 ∧
    (createBar 4 3 200).height = 3 ∧
    (createBar 4 3 200).pix 5 0 = zeroRGBA :=
  ⟨by norm_num, (createBar_bounds_safe 4 3 200 (by norm_num)).1,
    (createBar_bounds_safe 4 3 200 (by norm_num)).2.1,
    (createBar_bounds_safe 4 3 200 (by norm_num)).2.2 5 0
      (by norm_num)⟩

/-- C10: the label set by `PulseAudioControlWidget.Update` always has at
most 10 runes, and `stripTextTo 10` is the identity on strings of at
most 10 runes and takes exactly the first 10 runes otherwise. -/
theorem stripTextTo_spec :
    (∀ (showTitle : Bool) (sink : Option sinkInputData)
      (appName : List Char),
      (pulseUpdateLabel showTitle sink appName).length ≤ 10) ∧
    (∀ text : List Char, text.length ≤ 10 → stripTextTo 10 text = text) ∧
    (∀ text : List Char, 10 < text.length →
      stripTextTo 10 text = text.take 10) := by
  have hlen : ∀ text : List Char, (stripTextTo 10 text).length ≤ 10 := by
    intro text
    unfold stripTextTo
    split
    next h => simp
    next h => omega
  refine ⟨fun showTitle sink appName => hlen _, ?_, ?_⟩
  · intro text h
    unfold stripTextTo
    rw [if_neg (by omega)]
  · intro text h
    unfold stripTextTo
    rw [if_pos (by omega)]

/-- C10 witness: an 11-rune string is stripped to its first 10 runes;
a 3-rune string passes unchanged. -/
theorem stripTextTo_spec_witness :
    ((List.replicate 3 'b').length ≤ 10 ∧
      stripTextTo 10 (List.replicate 3 'b') = List.replicate 3 'b') ∧
    (10 < (List.replicate 11 'a').length ∧
      stripTextTo 10 (List.replicate 11 'a') =
        List.take 10 (List.replicate 11 'a')) := by
  constructor
  · exact ⟨by norm_num, stripTextTo_spec.2.1 _ (by norm_num)⟩
  · exact ⟨by norm_num, stripTextTo_spec.2.2 _ (by norm_num)⟩

/-- A simple font with exactly linear (ceiled) metrics, used to
instantiate the font-fit theorems: width and ascent are `⌈s⌉` at point
size `s`, descent is 0. -/
def linearFont : Font :=
  ⟨fun _ _ s => ⌈s⌉, fun _ _ s => ⌈s⌉, fun _ _ _ => 0⟩

theorem linearFont_width_mono (dpi : ℕ) (text : List Char) :
    Monotone (linearFont.widthAt dpi text) :=
  fun _ _ h => Int.ceil_le_ceil h

theorem linearFont_height_mono (dpi : ℕ) (text : List Char) :
    Monotone (linearFont.heightAt dpi text) := by
  intro a b h
  simp only [Font.heightAt, linearFont, add_zero]
  exact Int.ceil_le_ceil h

/-- C1: for every font with monotone measured metrics, every positive
DPI and step, and every bounding box viable at the minimal step (text
measured at any size `≤ step` fits the box — e.g. a 40×20 box at 72 DPI
for the linear font), `maxFontSize` returns a point size whose measured
width is at most `maxWidth` and whose measured height (ascent + descent)
is at most `maxHeight`; the returned actual width is that measured
width. -/
theorem maxFontSize_fits (F : Font) (step : ℚ) (dpi : ℕ)
    (text : List Char) (maxWidth maxHeight : ℤ) (hstep : 0 < step)
    (hdpi : 0 < dpi)
    (hhmono : Monotone (F.heightAt dpi text))
    (hviable : ∀ s : ℚ, s ≤ step →
      F.widthAt dpi text s ≤ maxWidth ∧
      F.heightAt dpi text s ≤ maxHeight) :
    (maxFontSize F step dpi maxWidth maxHeight text).2.1 =
      F.widthAt dpi text
        (maxFontSize F step dpi maxWidth maxHeight text).1 ∧
    F.widthAt dpi text (maxFontSize F step dpi maxWidth maxHeight text).1
      ≤ maxWidth ∧
    F.heightAt dpi text
      (maxFontSize F step dpi maxWidth maxHeight text).1 ≤ maxHeight := by
  simp only [maxFontSize, determineHeightFittingFontsize,
    determineWidthFittingFontsize]
  set initial : ℚ :=
    (maxHeight : ℚ) / ((dpi : ℚ) / 72) * (7 / 5) with hinitial
  set rh := fitLoop (fun s => F.heightAt dpi text s) maxHeight step
    initial with hrh
  set r := fitLoop (fun s => F.widthAt dpi text s) maxWidth step rh
    with hr
  refine ⟨trivial, ?_, ?_⟩
  · rcases fitLoop_fits_or_small (fun s => F.widthAt dpi text s) maxWidth
      hstep rh with h | h
    · exact h
    · exact (hviable r h).1
  · have hrle : r ≤ rh := hr ▸ fitLoop_le_self _ maxWidth step rh
    rcases fitLoop_fits_or_small (fun s => F.heightAt dpi text s)
      maxHeight hstep initial with h | h
    · exact le_trans (hhmono hrle) h
    · exact (hviable r (le_trans hrle h)).2

/-- C1 witness: the linear font in a 40×20 box at 72 DPI with step 1/4
(the `image_element.go` step): the returned size measures within the
box. -/
theorem maxFontSize_fits_witness :
    ((0 : ℚ) < 1 / 4 ∧ (0 : ℕ) < 72 ∧
      Monotone (linearFont.heightAt 72 []) ∧
      (∀ s : ℚ, s ≤ 1 / 4 →
        linearFont.widthAt 72 [] s ≤ 40 ∧
        linearFont.heightAt 72 [] s ≤ 20)) ∧
    ((maxFontSize linearFont (1 / 4) 72 40 20 []).2.1 =
      linearFont.widthAt 72 []
        (maxFontSize linearFont (1 / 4) 72 40 20 []).1 ∧
    linearFont.widthAt 72 []
      (maxFontSize linearFont (1 / 4) 72 40 20 []).1 ≤ 40 ∧
    linearFont.heightAt 72 []
      (maxFontSize linearFont (1 / 4) 72 40 20 []).1 ≤ 20) := by
  have hviable : ∀ s : ℚ, s ≤ 1 / 4 →
      linearFont.widthAt 72 [] s ≤ 40 ∧
      linearFont.heightAt 72 [] s ≤ 20 := by
    intro s hs
    have h1 : (⌈s⌉ : ℤ) ≤ 1 := by
      calc (⌈s⌉ : ℤ) ≤ ⌈(1 / 4 : ℚ)⌉ := Int.ceil_le_ceil hs
        _ = 1 := by
          rw [Int.ceil_eq_iff] <;> norm_num
    constructor
    · simpa [linearFont] using le_trans h1 (by norm_num)
    · simp only [Font.heightAt, linearFont, add_zero]
      exact le_trans h1 (by norm_num)
  exact ⟨⟨by norm_num, by norm_num,
      linearFont_height_mono 72 [], hviable⟩,
    maxFontSize_fits linearFont (1 / 4) 72 [] 40 20 (by norm_num)
      (by norm_num) (linearFont_height_mono 72 []) hviable⟩

/-- C5: both phases of the font-fit search terminate for every font
metric, DPI, text, box and starting size, for any positive step: the
fuel-indexed loop reaches the fixpoint with finite fuel, each iteration
strictly decreases the size by the fixed step, and a size at or below
the minimal step exits the loop at once. -/
theorem fontFitLoops_terminate (F : Font) (step : ℚ) (dpi : ℕ)
    (text : List Char) (startingFontsize : ℚ) (maxWidth maxHeight : ℤ)
    (hstep : 0 < step) :
    (∃ n, fitLoopFuel (fun s => F.heightAt dpi text s) maxHeight step n
        startingFontsize =
      some (determineHeightFittingFontsize F step dpi startingFontsize
        maxHeight text).2.2) ∧
    (∃ n, fitLoopFuel (fun s => F.widthAt dpi text s) maxWidth step n
        startingFontsize =
      some (determineWidthFittingFontsize F step dpi startingFontsize
        maxWidth text).2) ∧
    (∀ size : ℚ, step < size → size - step < size) ∧
    (∀ size : ℚ, size ≤ step →
      (determineHeightFittingFontsize F step dpi size maxHeight
        text).2.2 = size ∧
      (determineWidthFittingFontsize F step dpi size maxWidth
        text).2 = size) := by
  refine ⟨⟨fitMeasure step startingFontsize + 1, ?_⟩,
    ⟨fitMeasure step startingFontsize + 1, ?_⟩, ?_, ?_⟩
  · exact fitLoopFuel_eq _ maxHeight step _ startingFontsize
      (Nat.lt_succ_self _)
  · exact fitLoopFuel_eq _ maxWidth step _ startingFontsize
      (Nat.lt_succ_self _)
  · intro size h
    linarith
  · intro size h
    exact ⟨fitLoop_of_le_step _ maxHeight h, fitLoop_of_le_step _ maxWidth h⟩

/-- C5 witness: the linear font at 72 DPI, step 1/4, box 40×20, starting
size 28. -/
theorem fontFitLoops_terminate_witness :
    (0 : ℚ) < 1 / 4 ∧
    (∃ n, fitLoopFuel (fun s => linearFont.heightAt 72 [] s) 20 (1 / 4) n
        28 =
      some (determineHeightFittingFontsize linearFont (1 / 4) 72 28 20
        []).2.2) :=
  ⟨by norm_num,
    (fontFitLoops_terminate linearFont (1 / 4) 72 [] 28 40 20
      (by norm_num)).1⟩

/-- C7 (amended): for fixed font, DPI, text and `maxHeight`, decreasing
`maxWidth` never increases the size returned by `maxFontSize` (the
width-fit phase starts from the height-fit result, which does not depend
on `maxWidth`, and a lower width threshold only lets the loop run
longer). -/
theorem maxFontSize_mono_maxWidth (F : Font) (step : ℚ) (dpi : ℕ)
    (text : List Char) (maxHeight : ℤ) {maxWidth maxWidth' : ℤ}
    (h : maxWidth' ≤ maxWidth) :
    (maxFontSize F step dpi maxWidth' maxHeight text).1 ≤
      (maxFontSize F step dpi maxWidth maxHeight text).1 := by
  simp only [maxFontSize, determineHeightFittingFontsize,
    determineWidthFittingFontsize]
  exact fitLoop_mono_maxV _ step h _

/-- C7 witness: the linear font at 72 DPI, step 1/4, maxHeight 20,
maxWidth lowered from 40 to 30. -/
theorem maxFontSize_mono_maxWidth_witness :
    (30 : ℤ) ≤ 40 ∧
    (maxFontSize linearFont (1 / 4) 72 30 20 []).1 ≤
      (maxFontSize linearFont (1 / 4) 72 40 20 []).1 :=
  ⟨by norm_num,
    maxFontSize_mono_maxWidth linearFont (1 / 4) 72 [] 20 (by norm_num)⟩

/-- A font with exactly linear (ceiled) metrics, ink height `25/3`
pixels per point (an ordinary tall glyph at high DPI): width `⌈s⌉`,
ascent `⌈25/3 * s⌉`, descent 0. -/
def tallFont : Font :=
  ⟨fun _ _ s => ⌈s⌉, fun _ _ s => ⌈(25 / 3 : ℚ) * s⌉, fun _ _ _ => 0⟩

/-- C7 counterexample: `maxFontSize` is not monotone in `maxHeight`,
even for a font with monotone linear metrics.  At 600 DPI with
`maxWidth = 100` and step `1/4` (the `image_element.go` constant),
shrinking `maxHeight` from 32 to 31 moves the height-fit seed from
`5.376` to `5.208`, and the descent from the new seed stops at `3.708`
— strictly larger than the `3.626` returned for the taller box. -/
theorem maxFontSize_not_mono_maxHeight :
    Monotone (tallFont.widthAt 600 []) ∧
    Monotone (tallFont.heightAt 600 []) ∧
    (31 : ℤ) ≤ 32 ∧
    (maxFontSize tallFont (1 / 4) 600 100 32 []).1 <
      (maxFontSize tallFont (1 / 4) 600 100 31 []).1 := by
  have hM : (fun s => tallFont.heightAt 600 [] s) =
      fun s : ℚ => ⌈(25 / 3 : ℚ) * s⌉ := by
    funext s
    simp [tallFont, Font.heightAt]
  have hWf : (fun s => tallFont.widthAt 600 [] s) =
      fun s : ℚ => ⌈s⌉ := rfl
  have h32 : fitLoop (fun s : ℚ => ⌈(25 / 3 : ℚ) * s⌉) 32 (1 / 4)
      (672 / 125) = 1813 / 500 := by
    iterate 7 rw [fitLoop, dif_pos ⟨by norm_num,
      by rw [Int.lt_ceil]; norm_num, by norm_num⟩]
    rw [fitLoop, dif_neg (by
      intro hg
      rw [Int.lt_ceil] at hg
      norm_num at hg)]
    norm_num
  have h31 : fitLoop (fun s : ℚ => ⌈(25 / 3 : ℚ) * s⌉) 31 (1 / 4)
      (651 / 125) = 927 / 250 := by
    iterate 6 rw [fitLoop, dif_pos ⟨by norm_num,
      by rw [Int.lt_ceil]; norm_num, by norm_num⟩]
    rw [fitLoop, dif_neg (by
      intro hg
      rw [Int.lt_ceil] at hg
      norm_num at hg)]
    norm_num
  have hw32 : fitLoop (fun s : ℚ => ⌈s⌉) 100 (1 / 4) (1813 / 500) =
      1813 / 500 := by
    rw [fitLoop, dif_neg (by
      intro hg
      rw [Int.lt_ceil] at hg
      norm_num at hg)]
  have hw31 : fitLoop (fun s : ℚ => ⌈s⌉) 100 (1 / 4) (927 / 250) =
      927 / 250 := by
    rw [fitLoop, dif_neg (by
      intro hg
      rw [Int.lt_ceil] at hg
      norm_num at hg)]
  refine ⟨fun _ _ h => Int.ceil_le_ceil h, ?_, by norm_num, ?_⟩
  · intro a b h
    simp only [Font.heightAt, tallFont, add_zero]
    exact Int.ceil_le_ceil (by linarith)
  · simp only [maxFontSize, determineHeightFittingFontsize,
      determineWidthFittingFontsize, hM, hWf]
    rw [show ((32 : ℤ) : ℚ) / (((600 : ℕ) : ℚ) / 72) * (7 / 5) =
      672 / 125 by norm_num]
    rw [show ((31 : ℤ) : ℚ) / (((600 : ℕ) : ℚ) / 72) * (7 / 5) =
      651 / 125 by norm_num]
    rw [h32, h31, hw32, hw31]
    norm_num

/-- Floor of `h / 4.5` over the exact rationals is `2*h/9` in natural
division (this is what `uint(float64(h)/4.5)` computes). -/
theorem floor_div_nine_halves (h : ℕ) :
    (⌊((h : ℚ)) / (9 / 2)⌋).toNat = 2 * h / 9 := by
  have heq : ((h : ℚ)) / (9 / 2) = ((2 * h : ℕ) : ℚ) / ((9 : ℕ) : ℚ) := by
    push_cast
    ring
  rw [heq, Rat.floor_natCast_div_natCast]
  omega

/-- Floor of `w / 3.0` over the exact rationals is `w/3` in natural
division (this is what `uint(float64(w)/3.0)` computes). -/
theorem floor_div_three (w : ℕ) :
    (⌊((w : ℚ)) / 3⌋).toNat = w / 3 := by
  have heq : ((w : ℚ)) / 3 = ((w : ℕ) : ℚ) / ((3 : ℕ) : ℚ) := by
    push_cast
    ring
  rw [heq, Rat.floor_natCast_div_natCast]
  omega

/-- C8 (amended): in the three-region layout, when a label is present
its band height is `floor(availableHeight/4.5) - interspace/2` (Go
truncates, it does not round), and when both an icon and an info element
are present the icon element gets the left third of the row width minus
half the interspace, positioned below the label band, while the info
element takes the remaining width to the right of it.  Hypotheses rule
out the degenerate `uint` underflows of tiny canvases. -/
theorem ScreenSegmentLayout_geometry_spec
    (l : Layouts.ScreenSegmentLayout) (boundsW boundsH : ℕ)
    (hbw : boundsW < goWordSize) (hbh : boundsH < goWordSize)
    (hlabel : l.labelElement.isSome = true)
    (hicon : l.iconElement.isSome = true)
    (hinfo : l.infoElement.isSome = true)
    (hwm : boundsH / 18 * 2 ≤ boundsW)
    (hlh : boundsH / 18 / 2 ≤ 2 * (boundsH - boundsH / 18 * 2) / 9)
    (hiw : boundsH / 18 / 2 ≤ (boundsW - boundsH / 18 * 2) / 3) :
    (l.CreateImageGeometry boundsW boundsH).labelBoundsMax.2 =
      ((2 * (l.CreateImageGeometry boundsW boundsH).height / 9 -
        (l.CreateImageGeometry boundsW boundsH).interspaceElements / 2
        : ℕ) : ℤ) ∧
    (l.CreateImageGeometry boundsW boundsH).iconPosition.2 =
      ((l.CreateImageGeometry boundsW boundsH).margin : ℤ) +
        ((2 * (l.CreateImageGeometry boundsW boundsH).height / 9 -
          (l.CreateImageGeometry boundsW boundsH).interspaceElements / 2 +
          (l.CreateImageGeometry boundsW boundsH).interspaceElements
          : ℕ) : ℤ) ∧
    (l.CreateImageGeometry boundsW boundsH).iconBoundsMax.1 =
      (((l.CreateImageGeometry boundsW boundsH).width / 3 -
        (l.CreateImageGeometry boundsW boundsH).interspaceElements / 2
        : ℕ) : ℤ) ∧
    (l.CreateImageGeometry boundsW boundsH).infoBoundsMax.1 =
      (((l.CreateImageGeometry boundsW boundsH).width -
        ((l.CreateImageGeometry boundsW boundsH).width / 3 -
          (l.CreateImageGeometry boundsW boundsH).interspaceElements / 2) -
        (l.CreateImageGeometry boundsW boundsH).interspaceElements / 2
        : ℕ) : ℤ) ∧
    (l.CreateImageGeometry boundsW boundsH).infoPosition.1 =
      ((l.CreateImageGeometry boundsW boundsH).margin : ℤ) +
        (((l.CreateImageGeometry boundsW boundsH).width / 3 -
          (l.CreateImageGeometry boundsW boundsH).interspaceElements / 2
          : ℕ) : ℤ) +
        ((l.CreateImageGeometry boundsW boundsH).interspaceElements : ℤ)
    := by
  obtain ⟨io, lo, fo, d⟩ := l
  cases io with
  | none => simp at hicon
  | some iw =>
  cases lo with
  | none => simp at hlabel
  | some lw =>
  cases fo with
  | none => simp at hinfo
  | some fw =>
  simp only [Layouts.ScreenSegmentLayout.CreateImageGeometry]
  set m := boundsH / 18 with hm
  set h := boundsH - m * 2 with hh
  set w := goUsub boundsW (m * 2) with hw
  have hwv : w = boundsW - m * 2 := goUsub_of_le (by omega) hbw
  have hlabelHeight : goUsub (⌊((h : ℚ)) / (9 / 2)⌋).toNat (m / 2) =
      2 * h / 9 - m / 2 := by
    rw [floor_div_nine_halves]
    exact goUsub_of_le (by omega) (by omega)
  have hiconX : goUsub (⌊((w : ℚ)) / 3⌋).toNat (m / 2) =
      w / 3 - m / 2 := by
    rw [floor_div_three]
    refine goUsub_of_le ?_ ?_
    · rw [hwv] at *
      omega
    · have : w / 3 ≤ w := Nat.div_le_self w 3
      omega
  have hinfoX : goUsub (goUsub w (w / 3 - m / 2)) (m / 2) =
      w - (w / 3 - m / 2) - m / 2 := by
    have h1 : w / 3 - m / 2 ≤ w :=
      le_trans (Nat.sub_le _ _) (Nat.div_le_self w 3)
    rw [goUsub_of_le h1 (by omega)]
    refine goUsub_of_le ?_ (by omega)
    have h2 : w / 3 + m / 2 ≤ w ∨ w = 0 := by
      rw [hwv] at *
      omega
    omega
  refine ⟨?_, ?_, ?_, ?_, ?_⟩ <;>
    simp only [hlabelHeight, hiconX, hinfoX]

/-- A `WidgetElement` as freshly allocated (`&WidgetElement{}`). -/
def emptyWidgetElement : Layouts.WidgetElement := ⟨none, 0, 0, 0, 0, []⟩

/-- A `ScreenSegmentLayout` with icon, label and info elements all
populated. -/
def fullScreenLayout : Layouts.ScreenSegmentLayout :=
  ⟨some emptyWidgetElement, some emptyWidgetElement,
    some emptyWidgetElement, 200⟩

/-- C8 counterexample: on a 27×27 segment (margin 1, available height
25), the code computes a label band height of `floor(25/4.5) = 5`, while
the claimed formula `round(25/4.5) - margin/2 = 6` differs: the source
truncates, it does not round. -/
theorem ScreenSegmentLayout_labelHeight_cex :
    (fullScreenLayout.CreateImageGeometry 27 27).labelBoundsMax.2 = 5 ∧
    round (((fullScreenLayout.CreateImageGeometry 27 27).height : ℚ) /
        (9 / 2)) -
      (((fullScreenLayout.CreateImageGeometry 27 27).interspaceElements /
        2 : ℕ) : ℤ) = 6 ∧
    (fullScreenLayout.CreateImageGeometry 27 27).labelBoundsMax.2 ≠
      round (((fullScreenLayout.CreateImageGeometry 27 27).height : ℚ) /
          (9 / 2)) -
        (((fullScreenLayout.CreateImageGeometry 27 27).interspaceElements /
          2 : ℕ) : ℤ) := by
  have hheight : (fullScreenLayout.CreateImageGeometry 27 27).height =
      25 := rfl
  have hinter :
      (fullScreenLayout.CreateImageGeometry 27 27).interspaceElements =
      1 := rfl
  have hround : round (((25 : ℕ) : ℚ) / (9 / 2)) = 6 := by
    rw [round_eq]
    have heq : ((25 : ℕ) : ℚ) / (9 / 2) + 1 / 2 = 109 / 18 := by
      norm_num
    rw [heq, Int.floor_eq_iff]
    norm_num
  have hlabel :
      (fullScreenLayout.CreateImageGeometry 27 27).labelBoundsMax.2 =
      5 := by
    simp only [fullScreenLayout, emptyWidgetElement,
      Layouts.ScreenSegmentLayout.CreateImageGeometry]
    norm_num [goUsub, goWordSize]
  refine ⟨hlabel, ?_, ?_⟩
  · rw [hheight, hinter, hround]
    norm_num
  · rw [hlabel, hheight, hinter, hround]
    norm_num

/-- C8 witness: a 200×100 segment with icon, label and info all present
satisfies the amended geometry. -/
theorem ScreenSegmentLayout_geometry_spec_witness :
    (200 < goWordSize ∧ 100 < goWordSize ∧
      fullScreenLayout.labelElement.isSome = true ∧
      fullScreenLayout.iconElement.isSome = true ∧
      fullScreenLayout.infoElement.isSome = true ∧
      100 / 18 * 2 ≤ 200 ∧
      100 / 18 / 2 ≤ 2 * (100 - 100 / 18 * 2) / 9 ∧
      100 / 18 / 2 ≤ (200 - 100 / 18 * 2) / 3) ∧
    ((fullScreenLayout.CreateImageGeometry 200 100).labelBoundsMax.2 =
      ((2 * (fullScreenLayout.CreateImageGeometry 200 100).height / 9 -
        (fullScreenLayout.CreateImageGeometry 200 100).interspaceElements
          / 2 : ℕ) : ℤ) ∧
    (fullScreenLayout.CreateImageGeometry 200 100).iconPosition.2 =
      ((fullScreenLayout.CreateImageGeometry 200 100).margin : ℤ) +
        ((2 * (fullScreenLayout.CreateImageGeometry 200 100).height / 9 -
          (fullScreenLayout.CreateImageGeometry 200
            100).interspaceElements / 2 +
          (fullScreenLayout.CreateImageGeometry 200
            100).interspaceElements : ℕ) : ℤ) ∧
    (fullScreenLayout.CreateImageGeometry 200 100).iconBoundsMax.1 =
      (((fullScreenLayout.CreateImageGeometry 200 100).width / 3 -
        (fullScreenLayout.CreateImageGeometry 200 100).interspaceElements
          / 2 : ℕ) : ℤ) ∧
    (fullScreenLayout.CreateImageGeometry 200 100).infoBoundsMax.1 =
      (((fullScreenLayout.CreateImageGeometry 200 100).width -
        ((fullScreenLayout.CreateImageGeometry 200 100).width / 3 -
          (fullScreenLayout.CreateImageGeometry 200
            100).interspaceElements / 2) -
        (fullScreenLayout.CreateImageGeometry 200 100).interspaceElements
          / 2 : ℕ) : ℤ) ∧
    (fullScreenLayout.CreateImageGeometry 200 100).infoPosition.1 =
      ((fullScreenLayout.CreateImageGeometry 200 100).margin : ℤ) +
        (((fullScreenLayout.CreateImageGeometry 200 100).width / 3 -
          (fullScreenLayout.CreateImageGeometry 200
            100).interspaceElements / 2 : ℕ) : ℤ) +
        ((fullScreenLayout.CreateImageGeometry 200
          100).interspaceElements : ℤ)) :=
  ⟨⟨by norm_num [goWordSize], by norm_num [goWordSize], rfl, rfl, rfl,
      by norm_num, by norm_num, by norm_num⟩,
    ScreenSegmentLayout_geometry_spec fullScreenLayout 200 100
      (by norm_num [goWordSize]) (by norm_num [goWordSize]) rfl rfl rfl
      (by norm_num) (by norm_num) (by norm_num)⟩

